import Mathlib

/-!
Shallow embedding of the build-orchestration pipeline and the ephemeral
artifact store of src/app/main.py (LaTeX Render API), together with
verification of the specification claims about them.

Conventions: timestamps are integers; a filesystem is a set of paths (list of
strings); fallible environment interactions (outcome of a child process,
content of a log file, success of an os.remove call) are supplied as explicit
oracles so that the functions below are pure translations of the source.
-/

set_option maxRecDepth 2048

namespace LatexRenderer

/-- Claim-relevant observables of one subprocess.run call made by the code in
src/app/main.py: the argument vector and the value of the timeout keyword
argument in seconds, with none when no timeout argument was passed at all. -/
structure ProcCall where
  argv : List String
  timeoutSec : Option Nat
deriving DecidableEq

/-- A completed child process as captured by subprocess.run with
capture_output=True, text=True: exit code and the two captured streams. -/
structure CompletedProc where
  returncode : Int
  stdout : String
  stderr : String
deriving DecidableEq

/-- Default value of the timeout parameter of the helper _run (main.py:45). -/
def RUN_DEFAULT_TIMEOUT : Nat := 180

/-- Model of the helper _run (main.py:45-49): it always forwards its timeout
argument (default 180) to subprocess.run. Note: _compile_latexmk never calls
this helper; it calls subprocess.run directly. -/
def run (cmd : List String) (timeoutSec : Nat) : ProcCall :=
  { argv := cmd, timeoutSec := some timeoutSec }

/-- The resolved entrypoint as consumed by _compile_latexmk through pathlib:
directory part, stem and extension, so that Path(entry).name = stem ++ ext and
Path(entry).with_suffix(s) = dir/stem ++ s. -/
structure EntryPath where
  dir : String
  stem : String
  ext : String
deriving DecidableEq

/-- pathlib.Path(entry).name. -/
def EntryPath.name (e : EntryPath) : String := e.stem ++ e.ext

/-- pathlib.Path(entry).with_suffix(s), rendered as a string. -/
def EntryPath.withSuffix (e : EntryPath) (s : String) : String :=
  e.dir ++ "/" ++ e.stem ++ s

/-- The shell-escape flag chosen at main.py:54. -/
def shellFlag (allow_shell_escape : Bool) : String :=
  if allow_shell_escape then "-shell-escape" else "-no-shell-escape"

/-- The latexmk argument list built at main.py:55-57. -/
def latexmkCmd (allow_shell_escape : Bool) : List String :=
  ["latexmk", "-pdf", "-interaction=nonstopmode", shellFlag allow_shell_escape,
   "-halt-on-error", "-file-line-error", "-silent", "-f",
   "-pdflatex=pdflatex %O %S"]

/-- main.py:59 — the value stored in LATEXMK_MAX_REPEAT is
str(max(1, min(10, runs))). -/
def clampRuns (runs : Int) : Int := max 1 (min 10 runs)

/-- The fixed set of packages the recovery phase tries to install
(main.py:80). -/
def common_packages : List String := ["tracklang", "glossaries", "biblatex", "biber"]

/-- The tlmgr argument list built at main.py:83. -/
def tlmgrCmd (package : String) : List String := ["tlmgr", "--usermode", "install", package]

/-- One package-install subprocess.run call (main.py:84-85): it carries an
explicit timeout of 60 seconds. -/
def installCall (package : String) : ProcCall :=
  { argv := tlmgrCmd package, timeoutSec := some 60 }

/-- Environment oracles for one _compile_latexmk call: the outcome of the
first latexmk run, the outcome of each tlmgr install (none when the install
raised, for example on timeout expiry after 60 s — swallowed by the
per-package except at main.py:90-91), the outcome of the re-run, and the
content of the .log file when it exists on disk afterwards (main.py:101-108).
Process launch is assumed to succeed; a launch failure of the first attempt
propagates out of the function and is outside these claims. -/
structure InvokerEnv where
  firstResult : CompletedProc
  installResult : String → Option CompletedProc
  secondResult : CompletedProc
  logFileContent : Option String

/-- Observable outcome of _compile_latexmk (main.py:51-114): the pass-count
ceiling written to the LATEXMK_MAX_REPEAT environment variable, the child
processes spawned in order, the per-package recovery outcomes, and the two
returned values pdf_path and log. -/
structure InvokeTrace where
  maxRepeat : Int
  calls : List ProcCall
  installs : List (String × Option CompletedProc)
  pdf_path : String
  log : String
deriving DecidableEq

/-- Model of _compile_latexmk (main.py:51-114). The first attempt at
main.py:66 and the re-run at main.py:95 call subprocess.run directly with no
timeout argument; the recovery phase (installs plus re-run) executes exactly
when the first returncode is non-zero; the returned log is built from the
final result (stdout or two empty alternatives behave identically for
strings) plus the on-disk log file content. -/
def compileLatexmk (env : InvokerEnv) (entry : EntryPath) (allow_shell_escape : Bool)
    (runs : Int) : InvokeTrace :=
  let compileCall : ProcCall :=
    { argv := latexmkCmd allow_shell_escape ++ [entry.name], timeoutSec := none }
  let recover : Bool := env.firstResult.returncode != 0
  let finalResult : CompletedProc := if recover then env.secondResult else env.firstResult
  { maxRepeat := clampRuns runs,
    calls :=
      if recover then compileCall :: (common_packages.map installCall ++ [compileCall])
      else [compileCall],
    installs :=
      if recover then common_packages.map (fun p => (p, env.installResult p)) else [],
    pdf_path := entry.withSuffix ".pdf",
    log := finalResult.stdout ++ "\n" ++ finalResult.stderr ++
      "\n\n=== LaTeX Log File ===\n" ++ env.logFileContent.getD "" }

/-- A call is a compiler (latexmk) invocation when its program name is
latexmk. -/
def isCompilerCall (c : ProcCall) : Bool :=
  match c.argv with
  | a :: _ => a == "latexmk"
  | [] => false

/-- A call is a package-manager (tlmgr) invocation when its program name is
tlmgr. -/
def isInstallCall (c : ProcCall) : Bool :=
  match c.argv with
  | a :: _ => a == "tlmgr"
  | [] => false

theorem isCompilerCall_compile (a : Bool) (n : String) :
    isCompilerCall { argv := latexmkCmd a ++ [n], timeoutSec := none } = true := by
  simp [isCompilerCall, latexmkCmd]

theorem isCompilerCall_install (p : String) : isCompilerCall (installCall p) = false := by
  simp [isCompilerCall, installCall, tlmgrCmd]

theorem isInstallCall_compile (a : Bool) (n : String) :
    isInstallCall { argv := latexmkCmd a ++ [n], timeoutSec := none } = false := by
  simp [isInstallCall, latexmkCmd]

theorem isInstallCall_install (p : String) : isInstallCall (installCall p) = true := by
  simp [isInstallCall, installCall, tlmgrCmd]

/-- Claim C1 (code_bug evidence): the specification demands a hard 180-second
wall-clock timeout on every compiler invocation, and the helper _run does
default to 180 seconds, but the two latexmk invocations actually performed by
_compile_latexmk pass no timeout at all to subprocess.run: in every trace,
every compiler call carries timeoutSec = none. -/
theorem C1_compiler_invocations_run_without_timeout (env : InvokerEnv) (e : EntryPath)
    (a : Bool) (r : Int) :
    ((compileLatexmk env e a r).calls.filter isCompilerCall).all
        (fun c => c.timeoutSec.isNone) = true ∧
    (run (latexmkCmd a) RUN_DEFAULT_TIMEOUT).timeoutSec = some 180 := by
  constructor
  · by_cases h : env.firstResult.returncode = 0 <;>
      simp [compileLatexmk, h, List.filter_append, List.filter_map,
        isCompilerCall_compile, isCompilerCall_install, List.all_eq_true]
  · rfl

/-- Claim C8: the pass-count communicated to the toolchain through the
LATEXMK_MAX_REPEAT environment variable is max 1 (min 10 runs): 0 becomes 1,
999 becomes 10, and values already inside the interval pass through
unchanged; the communicated value always lies in the interval. -/
theorem C8_pass_count_clamped (env : InvokerEnv) (e : EntryPath) (a : Bool) :
    (∀ r : Int, (compileLatexmk env e a r).maxRepeat = clampRuns r) ∧
    (compileLatexmk env e a 0).maxRepeat = 1 ∧
    (compileLatexmk env e a 999).maxRepeat = 10 ∧
    (∀ r : Int, 1 ≤ r → r ≤ 10 → (compileLatexmk env e a r).maxRepeat = r) ∧
    (∀ r : Int, 1 ≤ (compileLatexmk env e a r).maxRepeat ∧
      (compileLatexmk env e a r).maxRepeat ≤ 10) := by
  have hmr : ∀ r : Int, (compileLatexmk env e a r).maxRepeat = clampRuns r := fun _ => rfl
  refine ⟨hmr, ?_, ?_, ?_, ?_⟩
  · rw [hmr]; decide
  · rw [hmr]; decide
  · intro r h1 h2
    rw [hmr, clampRuns, min_eq_right h2, max_eq_right h1]
  · intro r
    rw [hmr, clampRuns]
    exact ⟨le_max_left 1 _, max_le (by norm_num) (min_le_left 10 r)⟩

/-- A sample oracle environment whose first attempt exits with status 1. -/
def envFirstFails : InvokerEnv :=
  { firstResult := { returncode := 1, stdout := "first out", stderr := "err" },
    installResult := fun p => if p == "biber" then none else
      some { returncode := 0, stdout := "installed", stderr := "" },
    secondResult := { returncode := 0, stdout := "second out", stderr := "" },
    logFileContent := some "log body" }

/-- A sample entrypoint, /tmp/latexapi_x/main.tex. -/
def entryMain : EntryPath := { dir := "/tmp/latexapi_x", stem := "main", ext := ".tex" }

/-- Witness for C8: the clamp evaluated through compileLatexmk at the
in-range input 5 returns 5. -/
theorem C8_pass_count_clamped_witness :
    (compileLatexmk envFirstFails entryMain true 5).maxRepeat = 5 :=
  (C8_pass_count_clamped envFirstFails entryMain true).2.2.2.1 5 (by decide) (by decide)

/-- Claim C6: the invoker performs at most two compiler invocations — exactly
two precisely when the first returncode is non-zero; the recovery phase runs
exactly the fixed package list through tlmgr, each install call bounded by its
own 60-second timeout; and the result (spawned calls, pdf_path, log) is
independent of the install outcomes, so an individual install failure never
propagates to the caller. -/
theorem C6_at_most_two_invocations (env : InvokerEnv) (e : EntryPath) (a : Bool) (r : Int) :
    ((compileLatexmk env e a r).calls.filter isCompilerCall).length =
      (if env.firstResult.returncode = 0 then 1 else 2) ∧
    ((compileLatexmk env e a r).calls.filter isCompilerCall).length ≤ 2 ∧
    (env.firstResult.returncode ≠ 0 →
      (compileLatexmk env e a r).calls.filter isInstallCall =
        common_packages.map installCall ∧
      ∀ c ∈ common_packages.map installCall, c.timeoutSec = some 60) ∧
    (env.firstResult.returncode = 0 →
      (compileLatexmk env e a r).calls.filter isInstallCall = []) ∧
    (∀ env2 : InvokerEnv, env2.firstResult = env.firstResult →
      env2.secondResult = env.secondResult → env2.logFileContent = env.logFileContent →
      (compileLatexmk env2 e a r).calls = (compileLatexmk env e a r).calls ∧
      (compileLatexmk env2 e a r).pdf_path = (compileLatexmk env e a r).pdf_path ∧
      (compileLatexmk env2 e a r).log = (compileLatexmk env e a r).log) := by
  have hfc : (common_packages.map installCall).filter isCompilerCall = [] := by decide
  have hic : (common_packages.map installCall).filter isInstallCall =
      common_packages.map installCall := by decide
  refine ⟨?_, ?_, ?_, ?_, ?_⟩
  · by_cases h : env.firstResult.returncode = 0 <;>
      simp [compileLatexmk, h, List.filter_append, List.filter_cons,
        isCompilerCall_compile, hfc]
  · by_cases h : env.firstResult.returncode = 0 <;>
      simp [compileLatexmk, h, List.filter_append, List.filter_cons,
        isCompilerCall_compile, hfc]
  · intro h
    refine ⟨?_, ?_⟩
    · simp [compileLatexmk, h, List.filter_append, List.filter_cons,
        isInstallCall_compile, hic]
    · intro c hc
      rcases List.mem_map.mp hc with ⟨p, -, rfl⟩
      rfl
  · intro h
    simp [compileLatexmk, h, List.filter_cons, isInstallCall_compile]
  · intro env2 h1 h2 h3
    refine ⟨?_, rfl, ?_⟩ <;> simp [compileLatexmk, h1, h2, h3]

/-- Witness for C6: in the sampled failing run the recovery phase issues
exactly the four fixed tlmgr install calls. -/
theorem C6_at_most_two_invocations_witness :
    (compileLatexmk envFirstFails entryMain true 3).calls.filter isInstallCall =
      common_packages.map installCall :=
  ((C6_at_most_two_invocations envFirstFails entryMain true 3).2.2.1 (by decide)).1

/-- Python tail slice s[-n:]: the last min(n, length) characters of s. -/
def pyTail (s : String) (n : Nat) : String := String.mk (s.data.drop (s.data.length - n))

/-- The maximum number of characters of the log returned in the 422 payload
(main.py:215 slices log[-20000:]). -/
def LOG_TAIL_LIMIT : Nat := 20000

/-- The tail slice is a suffix of the sliced string. -/
theorem pyTail_suffix (s : String) (n : Nat) : (pyTail s n).data <:+ s.data := by
  show s.data.drop (s.data.length - n) <:+ s.data
  exact List.drop_suffix _ _

/-- The tail slice has length at most the requested bound. -/
theorem pyTail_length_le (s : String) (n : Nat) : (pyTail s n).length ≤ n := by
  show (s.data.drop (s.data.length - n)).length ≤ n
  rw [List.length_drop]
  omega

/-- The response produced by the render endpoint body. -/
inductive RenderStep where
  | ok422 (log : String)
  | okSuccess (file_id : String)
  | raised (detail : String)
deriving DecidableEq

/-- The observables needed by the exit-path claims: the response and whether
shutil.rmtree was executed on the scratch workspace. -/
structure RenderResult where
  response : RenderStep
  workdirRemoved : Bool
deriving DecidableEq

/-- Oracles and parameters for one request through the pipeline: the outcome
of _detect_entrypoint (error carries the detail of the HTTPException it
raised), the invoker oracles, the request parameters, the filesystem queried
for the output file at main.py:211, whether the persistence steps
(main.py:222-244, copy plus metadata insert) succeed, and the generated
identifier. -/
structure RenderEnv where
  detectOutcome : Except String EntryPath
  invoker : InvokerEnv
  allow_shell_escape : Bool
  runs : Int
  fileExists : String → Bool
  storeOk : Bool
  file_id : String

/-- Model of the try/except body of render (main.py:202-266), entered after
the workspace has been extracted. The except branch (main.py:262-266) removes
the workspace and re-raises; the success branch removes it at main.py:248;
the classified-failure branch (main.py:211-216) returns the 422 response
directly from inside the try block and performs no removal. -/
def renderPipeline (env : RenderEnv) : RenderResult :=
  match env.detectOutcome with
  | Except.error detail => { response := RenderStep.raised detail, workdirRemoved := true }
  | Except.ok entry =>
    let t := compileLatexmk env.invoker entry env.allow_shell_escape env.runs
    if env.fileExists t.pdf_path then
      if env.storeOk then
        { response := RenderStep.okSuccess env.file_id, workdirRemoved := true }
      else { response := RenderStep.raised "store failure", workdirRemoved := true }
    else
      { response := RenderStep.ok422 (pyTail t.log LOG_TAIL_LIMIT), workdirRemoved := false }

/-- Whether a response is the classified-failure (HTTP 422) payload. -/
def is422 : RenderStep → Bool
  | RenderStep.ok422 _ => true
  | _ => false

/-- A pipeline environment whose compilation yields no output file. -/
def envNoPdf : RenderEnv :=
  { detectOutcome := Except.ok entryMain, invoker := envFirstFails,
    allow_shell_escape := false, runs := 3, fileExists := fun _ => false,
    storeOk := true, file_id := "f1" }

/-- A pipeline environment whose compilation yields an output file. -/
def envWithPdf : RenderEnv := { envNoPdf with fileExists := fun _ => true }

/-- A pipeline environment whose entrypoint detection raises. -/
def envDetectRaises : RenderEnv :=
  { envNoPdf with detectOutcome := Except.error "No .tex files found in project." }

/-- A pipeline environment with compiler exit status 0 and no output file. -/
def envExitZeroNoPdf : RenderEnv :=
  { envNoPdf with invoker :=
    { envFirstFails with firstResult := { returncode := 0, stdout := "", stderr := "" } } }

/-- Claim C2 (code_bug evidence): on the classified-failure exit path the 422
response is returned without the workspace ever being removed, while the
success path and the exception path do remove it — so the scratch directory
is leaked exactly on the classified-failure path, falsifying cleanup on every
exit path. -/
theorem C2_workspace_leaked_on_classified_failure :
    (renderPipeline envNoPdf).workdirRemoved = false ∧
    is422 (renderPipeline envNoPdf).response = true ∧
    (renderPipeline envWithPdf).workdirRemoved = true ∧
    (renderPipeline envDetectRaises).workdirRemoved = true :=
  ⟨rfl, rfl, rfl, rfl⟩

/-- Helper: the classification bit of the pipeline is exactly the negation of
output-file existence. -/
theorem renderPipeline_classify (env : RenderEnv) (entry : EntryPath)
    (h : env.detectOutcome = Except.ok entry) :
    is422 (renderPipeline env).response =
      !(env.fileExists
        (compileLatexmk env.invoker entry env.allow_shell_escape env.runs).pdf_path) := by
  by_cases hf : env.fileExists
      (compileLatexmk env.invoker entry env.allow_shell_escape env.runs).pdf_path
  · by_cases hs : env.storeOk <;> simp [renderPipeline, h, hf, hs, is422]
  · simp [renderPipeline, h, hf, is422]

/-- Claim C3: the pipeline classifies a build as failure (422) exactly when
the output file is absent on disk; the classification is independent of the
exit status and all other compiler outcomes; and the failure payload is the
tail slice of the log, of length at most 20000 and a suffix of the full
log. -/
theorem C3_classification_by_output_existence (env : RenderEnv) (entry : EntryPath)
    (h : env.detectOutcome = Except.ok entry) :
    (is422 (renderPipeline env).response = true ↔
      env.fileExists
        (compileLatexmk env.invoker entry env.allow_shell_escape env.runs).pdf_path
          = false) ∧
    (env.fileExists
        (compileLatexmk env.invoker entry env.allow_shell_escape env.runs).pdf_path = false →
      (renderPipeline env).response = RenderStep.ok422
        (pyTail (compileLatexmk env.invoker entry env.allow_shell_escape env.runs).log
          LOG_TAIL_LIMIT)) ∧
    (∀ s : String, (pyTail s LOG_TAIL_LIMIT).length ≤ 20000 ∧
      (pyTail s LOG_TAIL_LIMIT).data <:+ s.data) ∧
    (∀ env2 : RenderEnv, env2.detectOutcome = env.detectOutcome →
      env2.fileExists = env.fileExists →
      env2.allow_shell_escape = env.allow_shell_escape → env2.runs = env.runs →
      is422 (renderPipeline env2).response = is422 (renderPipeline env).response) := by
  have hpdf : ∀ (envI : InvokerEnv) (a : Bool) (r : Int),
      (compileLatexmk envI entry a r).pdf_path = entry.withSuffix ".pdf" := fun _ _ _ => rfl
  refine ⟨?_, ?_, ?_, ?_⟩
  · rw [renderPipeline_classify env entry h]
    cases hf : env.fileExists
        (compileLatexmk env.invoker entry env.allow_shell_escape env.runs).pdf_path <;>
      simp [hf]
  · intro hf
    simp [renderPipeline, h, hf]
  · intro s
    exact ⟨le_trans (pyTail_length_le s LOG_TAIL_LIMIT) (le_of_eq rfl),
      pyTail_suffix s LOG_TAIL_LIMIT⟩
  · intro env2 h1 h2 h3 h4
    rw [renderPipeline_classify env entry h, renderPipeline_classify env2 entry (by rw [h1, h])]
    rw [hpdf, hpdf, h2]

/-- Witness for C3: a synthetic run with exit status 0 and a missing output
file classifies as failure, and one with exit status 1 and the output present
classifies as success. -/
theorem C3_classification_witness :
    is422 (renderPipeline envExitZeroNoPdf).response = true ∧
    is422 (renderPipeline envWithPdf).response = false := by
  constructor
  · exact (C3_classification_by_output_existence envExitZeroNoPdf entryMain rfl).1.mpr rfl
  · have h := (C3_classification_by_output_existence envWithPdf entryMain rfl).1
    cases hb : is422 (renderPipeline envWithPdf).response
    · rfl
    · exact absurd (h.mp hb) (fun hcon => Bool.noConfusion hcon)

/-- One candidate file produced by Path(workdir).rglob of the source
extension: its full path and its final name component. -/
structure TexFile where
  path : String
  name : String
deriving DecidableEq

/-- Result of _detect_entrypoint (main.py:28-43); the three failure
constructors correspond to the three HTTPException(400) raise sites. -/
inductive DetectResult where
  | ok (path : String)
  | entrypointNotFound (explicit : String)
  | noCandidates
  | ambiguous
deriving DecidableEq

/-- Lowercasing as performed by str.lower() on the ASCII names involved:
map Char.toLower over the characters. -/
def lowerString (s : String) : String := String.mk (s.data.map Char.toLower)

/-- POSIX absoluteness of a path: it starts with a slash. -/
def isAbsolutePath (p : String) : Bool :=
  match p.data with
  | [] => false
  | c :: _ => c == '/'

/-- pathlib.Path(workdir, explicit): when the second segment is absolute it
replaces the first entirely; otherwise the two are joined with a
separator. -/
def joinPath (workdir p : String) : String :=
  if isAbsolutePath p then p else workdir ++ "/" ++ p

/-- The scan branch of _detect_entrypoint (main.py:34-43): no candidates is
an error; the first candidate whose lowercased name is main.tex wins
unconditionally; otherwise a unique candidate is returned; otherwise the
resolution is ambiguous. -/
def detectScan (tex_files : List TexFile) : DetectResult :=
  if tex_files.isEmpty then DetectResult.noCandidates
  else
    match tex_files.find? (fun cand => lowerString cand.name == "main.tex") with
    | some cand => DetectResult.ok cand.path
    | none =>
      match tex_files with
      | [single] => DetectResult.ok single.path
      | _ => DetectResult.ambiguous

/-- Model of _detect_entrypoint (main.py:28-43). The Python guard
`if explicit:` is falsy both for None and for the empty string, so an empty
explicit argument falls through to the scan branch. fsExists is the
filesystem oracle backing Path.exists, and tex_files is the rglob listing of
the workspace tree. -/
def detect_entrypoint (fsExists : String → Bool) (workdir : String)
    (explicit : Option String) (tex_files : List TexFile) : DetectResult :=
  match explicit with
  | some e =>
    if e == "" then detectScan tex_files
    else
      let ep := joinPath workdir e
      if fsExists ep then DetectResult.ok ep else DetectResult.entrypointNotFound e
  | none => detectScan tex_files

/-- Claim C4: entrypoint resolution follows exactly the claimed decision
order — an explicit entrypoint is joined to the workspace and returned when
it exists, else entrypoint-not-found; with no explicit entrypoint an empty
candidate list is no-candidates; a candidate named main.tex
(case-insensitively) is returned whenever one exists, regardless of the
number of candidates; otherwise a unique candidate is returned; otherwise
the resolution fails as ambiguous. -/
theorem C4_entrypoint_resolution (fs : String → Bool) (workdir e : String)
    (files : List TexFile) :
    (e ≠ "" → detect_entrypoint fs workdir (some e) files =
      (if fs (joinPath workdir e) then DetectResult.ok (joinPath workdir e)
       else DetectResult.entrypointNotFound e)) ∧
    (detect_entrypoint fs workdir none [] = DetectResult.noCandidates) ∧
    (∀ m ∈ files, lowerString m.name = "main.tex" →
      ∃ m2 ∈ files, lowerString m2.name = "main.tex" ∧
        detect_entrypoint fs workdir none files = DetectResult.ok m2.path) ∧
    ((∀ f ∈ files, lowerString f.name ≠ "main.tex") → ∀ single, files = [single] →
      detect_entrypoint fs workdir none files = DetectResult.ok single.path) ∧
    ((∀ f ∈ files, lowerString f.name ≠ "main.tex") → 2 ≤ files.length →
      detect_entrypoint fs workdir none files = DetectResult.ambiguous) := by
  refine ⟨?_, rfl, ?_, ?_, ?_⟩
  · intro he
    have hb : (e == "") = false := by simp [he]
    simp [detect_entrypoint, hb]
  · intro m hm hmain
    have hsome : (files.find? (fun cand => lowerString cand.name == "main.tex")).isSome := by
      rw [List.find?_isSome]
      exact ⟨m, hm, by simp [hmain]⟩
    rcases Option.isSome_iff_exists.mp hsome with ⟨m2, hfind⟩
    refine ⟨m2, List.mem_of_find?_eq_some hfind, ?_, ?_⟩
    · have := List.find?_some hfind
      simpa using this
    · cases files with
      | nil => cases hm
      | cons a t => simp [detect_entrypoint, detectScan, hfind]
  · intro hnone single hfiles
    subst hfiles
    have hfe : ([single].find? (fun cand => lowerString cand.name == "main.tex")) = none := by
      rw [List.find?_eq_none]
      intro x hx
      simp [hnone x hx]
    simp [detect_entrypoint, detectScan, hfe]
  · intro hnone hlen
    match files, hlen with
    | x :: y :: t, _ =>
      have hfe : ((x :: y :: t).find? (fun cand => lowerString cand.name == "main.tex"))
          = none := by
        rw [List.find?_eq_none]
        intro z hz
        simp [hnone z hz]
      simp [detect_entrypoint, detectScan, hfe]

/-- Sample candidate listing containing a candidate named Main.TEX among
several others. -/
def filesWithMain : List TexFile :=
  [{ path := "/w/a.tex", name := "a.tex" },
   { path := "/w/sub/Main.TEX", name := "Main.TEX" },
   { path := "/w/b.tex", name := "b.tex" }]

/-- Witness for C4: with three candidates one of which is named Main.TEX,
the resolution returns a main-named candidate. -/
theorem C4_entrypoint_resolution_witness :
    ∃ m2 ∈ filesWithMain, lowerString m2.name = "main.tex" ∧
      detect_entrypoint (fun _ => true) "/w" none filesWithMain = DetectResult.ok m2.path :=
  (C4_entrypoint_resolution (fun _ => true) "/w" "x" filesWithMain).2.2.1
    { path := "/w/sub/Main.TEX", name := "Main.TEX" } (by decide) (by decide)

/-- Claim C10: when the explicit entrypoint is an absolute path, the pathlib
join discards the workspace root, so the resolver returns the absolute path
itself whenever it exists, with no containment check against the
workspace. -/
theorem C10_absolute_explicit_escapes_workspace (fs : String → Bool) (workdir e : String)
    (files : List TexFile) (habs : isAbsolutePath e = true) (hne : e ≠ "")
    (hex : fs e = true) :
    joinPath workdir e = e ∧
    detect_entrypoint fs workdir (some e) files = DetectResult.ok e := by
  have hj : joinPath workdir e = e := by simp [joinPath, habs]
  have hb : (e == "") = false := by simp [hne]
  refine ⟨hj, ?_⟩
  simp [detect_entrypoint, hb, hj, hex]

/-- Filesystem oracle for the C10 witness: only /etc/passwd exists. -/
def fsEtc : String → Bool := fun p => p == "/etc/passwd"

/-- Witness for C10: the explicit absolute entrypoint /etc/passwd resolves to
itself, a path that does not lie under the workspace /tmp/latexapi_w. -/
theorem C10_absolute_explicit_escapes_workspace_witness :
    detect_entrypoint fsEtc "/tmp/latexapi_w" (some "/etc/passwd") [] =
      DetectResult.ok "/etc/passwd" ∧
    String.isPrefixOf "/tmp/latexapi_w" "/etc/passwd" = false :=
  ⟨(C10_absolute_explicit_escapes_workspace fsEtc "/tmp/latexapi_w" "/etc/passwd" []
      (by decide) (by decide) (by decide)).2, by decide⟩

/-- One entry of the file_metadata index (main.py:238-244). Timestamps are
integers; expiry comparisons in the code are strict (now > expires_at). -/
structure ArtifactRecord where
  filename : String
  storage_path : String
  created_at : Int
  expires_at : Int
  size : Nat
deriving DecidableEq

/-- The shared state touched by download_file and the sweeper: the
file_metadata dict as an insertion-ordered association list with unique keys,
the set of paths present on disk, and an oracle saying whether os.remove at a
path succeeds (false models os.remove raising, the case the try/except blocks
of main.py:130-137 and main.py:278-284 exist for). -/
structure StoreState where
  index : List (String × ArtifactRecord)
  disk : List String
  removeOk : String → Bool

/-- Dict lookup file_metadata[file_id] (first pair with the key). -/
def findId (index : List (String × ArtifactRecord)) (file_id : String) :
    Option ArtifactRecord :=
  (index.find? (fun p => p.1 == file_id)).map Prod.snd

/-- Dict deletion del file_metadata[file_id]: removes the pairs carrying the
key (keys are unique in a dict, so at most one pair is removed). -/
def delId (index : List (String × ArtifactRecord)) (file_id : String) :
    List (String × ArtifactRecord) :=
  index.filter (fun p => !(p.1 == file_id))

/-- Lookup on the full state. -/
def lookupId (st : StoreState) (file_id : String) : Option ArtifactRecord :=
  findId st.index file_id

/-- os.remove on the disk model. -/
def removeDisk (disk : List String) (path : String) : List String :=
  disk.filter (fun q => !(q == path))

theorem find?_delId_self (idx : List (String × ArtifactRecord)) (i : String) :
    (delId idx i).find? (fun p => p.1 == i) = none := by
  rw [List.find?_eq_none]
  intro p hp
  have h2 := (List.mem_filter.mp hp).2
  simpa using h2

theorem findId_delId_self (idx : List (String × ArtifactRecord)) (i : String) :
    findId (delId idx i) i = none := by
  unfold findId
  rw [find?_delId_self]
  rfl

theorem not_mem_removeDisk_self (l : List String) (x : String) : x ∉ removeDisk l x := by
  intro hx
  have h2 := (List.mem_filter.mp hx).2
  simp at h2

/-- Result of one GET /files/file_id request (download_file,
main.py:268-303), tagged by the raise site. -/
inductive GetResult where
  | notFound
  | expired
  | missingOnDisk
  | okFile (path : String) (md : ArtifactRecord)
deriving DecidableEq

/-- The HTTP status each outcome is reported with: 404 for both notFound and
missingOnDisk, 410 for expired, 200 for a served file. -/
def httpStatus : GetResult → Nat
  | GetResult.notFound => 404
  | GetResult.expired => 410
  | GetResult.missingOnDisk => 404
  | GetResult.okFile _ _ => 200

/-- Model of download_file (main.py:268-303). On the expired branch the code
wraps both the file removal and the record deletion in one try/except: when
os.remove raises, the record deletion is skipped, and HTTPException(410) is
raised either way. On the unexpired-but-missing branch the record is deleted
and HTTPException(404) is raised. -/
def download_file (now : Int) (st : StoreState) (file_id : String) :
    GetResult × StoreState :=
  match lookupId st file_id with
  | none => (GetResult.notFound, st)
  | some md =>
    if md.expires_at < now then
      if st.disk.contains md.storage_path then
        if st.removeOk md.storage_path then
          (GetResult.expired,
           { st with disk := removeDisk st.disk md.storage_path,
                     index := delId st.index file_id })
        else (GetResult.expired, st)
      else (GetResult.expired, { st with index := delId st.index file_id })
    else
      if st.disk.contains md.storage_path then (GetResult.okFile md.storage_path md, st)
      else (GetResult.missingOnDisk, { st with index := delId st.index file_id })

/-- Retrieval of an identifier with no record returns NotFound and changes
nothing. -/
theorem download_file_of_lookup_none (now : Int) (st : StoreState) (id : String)
    (h : lookupId st id = none) : download_file now st id = (GetResult.notFound, st) := by
  simp [download_file, h]

/-- A stored artifact record expiring at time 50. -/
def recBad : ArtifactRecord :=
  { filename := "latex-id1.pdf", storage_path := "/tmp/latex_storage/id1.pdf",
    created_at := 0, expires_at := 50, size := 7 }

/-- A store holding one expired record whose backing-file removal raises. -/
def stBad : StoreState :=
  { index := [("id1", recBad)], disk := ["/tmp/latex_storage/id1.pdf"],
    removeOk := fun _ => false }

/-- Counterexample for C5: when os.remove raises on the expired path, the
record deletion is skipped (it sits in the same try block), so a second
retrieval of the same identifier returns Expired again instead of the claimed
NotFound — Expired is not returned exactly once. -/
theorem C5_expired_twice_counterexample :
    (download_file 100 stBad "id1").1 = GetResult.expired ∧
    (download_file 100 (download_file 100 stBad "id1").2 "id1").1 = GetResult.expired ∧
    (download_file 100 (download_file 100 stBad "id1").2 "id1").1 ≠ GetResult.notFound := by
  refine ⟨rfl, rfl, by decide⟩

/-- Claim C5 as amended: absent record gives NotFound; an expired record
gives Expired (410, distinguishable from the 404 of NotFound), and — provided
the backing-file removal does not raise (or the file is already gone) — both
the file and the record are deleted so a subsequent retrieval yields
NotFound; when the removal raises, the record deletion is skipped and the
state is unchanged. An unexpired record whose file is absent is deleted and
reported as not-found (404, MissingOnDisk self-repair). -/
theorem C5_retrieval_amended (now : Int) (st : StoreState) (id : String) :
    (lookupId st id = none → download_file now st id = (GetResult.notFound, st)) ∧
    (∀ md, lookupId st id = some md → md.expires_at < now →
      (download_file now st id).1 = GetResult.expired ∧
      httpStatus GetResult.expired = 410 ∧ httpStatus GetResult.notFound = 404 ∧
      ((md.storage_path ∉ st.disk ∨ st.removeOk md.storage_path = true) →
        lookupId (download_file now st id).2 id = none ∧
        (download_file now (download_file now st id).2 id).1 = GetResult.notFound ∧
        md.storage_path ∉ (download_file now st id).2.disk) ∧
      (md.storage_path ∈ st.disk → st.removeOk md.storage_path = false →
        (download_file now st id).2 = st)) ∧
    (∀ md, lookupId st id = some md → ¬(md.expires_at < now) →
      md.storage_path ∉ st.disk →
      (download_file now st id).1 = GetResult.missingOnDisk ∧
      httpStatus GetResult.missingOnDisk = 404 ∧
      lookupId (download_file now st id).2 id = none) := by
  refine ⟨?_, ?_, ?_⟩
  · intro h
    simp [download_file, h]
  · intro md hmd hexp
    refine ⟨?_, rfl, rfl, ?_, ?_⟩
    · by_cases hc : md.storage_path ∈ st.disk
      · by_cases hr : st.removeOk md.storage_path = true
        · simp [download_file, hmd, hexp, hc, hr]
        · simp [download_file, hmd, hexp, hc, hr]
      · simp [download_file, hmd, hexp, hc]
    · intro hcond
      have hstep : (download_file now st id).2.index = delId st.index id ∧
          md.storage_path ∉ (download_file now st id).2.disk := by
        rcases hcond with hc | hr
        · constructor
          · simp [download_file, hmd, hexp, hc]
          · simp [download_file, hmd, hexp, hc]
        · by_cases hc : md.storage_path ∈ st.disk
          · constructor
            · simp [download_file, hmd, hexp, hc, hr]
            · have hd : (download_file now st id).2.disk
                  = removeDisk st.disk md.storage_path := by
                simp [download_file, hmd, hexp, hc, hr]
              rw [hd]
              exact not_mem_removeDisk_self st.disk md.storage_path
          · constructor
            · simp [download_file, hmd, hexp, hc]
            · simp [download_file, hmd, hexp, hc]
      have hl : lookupId (download_file now st id).2 id = none := by
        rw [lookupId, hstep.1]
        exact findId_delId_self _ _
      refine ⟨hl, ?_, hstep.2⟩
      rw [download_file_of_lookup_none now _ id hl]
    · intro hc hr
      simp [download_file, hmd, hexp, hc, hr]
  · intro md hmd hexp hc
    refine ⟨?_, rfl, ?_⟩
    · simp [download_file, hmd, hexp, hc]
    · have hstep : (download_file now st id).2.index = delId st.index id := by
        simp [download_file, hmd, hexp, hc]
      rw [lookupId, hstep]
      exact findId_delId_self _ _

/-- A store holding one expired record whose backing-file removal
succeeds. -/
def stGood : StoreState :=
  { index := [("id1", recBad)], disk := ["/tmp/latex_storage/id1.pdf"],
    removeOk := fun _ => true }

/-- Witness for the amended C5: with a removable backing file, the first
retrieval of the expired record returns Expired and the second returns
NotFound. -/
theorem C5_retrieval_amended_witness :
    (download_file 100 stGood "id1").1 = GetResult.expired ∧
    (download_file 100 (download_file 100 stGood "id1").2 "id1").1 =
      GetResult.notFound := by
  have h := (C5_retrieval_amended 100 stGood "id1").2.1 recBad (by decide) (by decide)
  exact ⟨h.1, (h.2.2.2.1 (Or.inr rfl)).2.1⟩

/-- Events emitted by the sweeper loop, in program order. -/
inductive SweepEvent where
  | fileRemoved (path : String)
  | indexRemoved (file_id : String)
deriving DecidableEq

/-- The body of the deletion loop of _cleanup_expired_files (main.py:129-137)
for one collected identifier: look the record up again, remove the backing
file when it exists, then delete the index entry, in that order; when
os.remove raises, the except catches it, the index deletion is skipped, and
the loop continues with the next identifier. -/
def cleanupOne (st : StoreState) (file_id : String) : StoreState × List SweepEvent :=
  match lookupId st file_id with
  | none => (st, [])
  | some md =>
    if st.disk.contains md.storage_path then
      if st.removeOk md.storage_path then
        ({ st with disk := removeDisk st.disk md.storage_path,
                   index := delId st.index file_id },
         [SweepEvent.fileRemoved md.storage_path, SweepEvent.indexRemoved file_id])
      else (st, [])
    else ({ st with index := delId st.index file_id }, [SweepEvent.indexRemoved file_id])

/-- The deletion loop over the collected identifiers (main.py:129-137). -/
def sweepList : StoreState → List String → StoreState × List SweepEvent
  | st, [] => (st, [])
  | st, file_id :: rest =>
    let r := cleanupOne st file_id
    let r2 := sweepList r.1 rest
    (r2.1, r.2 ++ r2.2)

/-- The identifiers collected by the scan loop (main.py:125-127): those whose
record satisfies now > expires_at. -/
def expiredIds (now : Int) (st : StoreState) : List String :=
  (st.index.filter (fun p => decide (p.2.expires_at < now))).map Prod.fst

/-- Model of _cleanup_expired_files (main.py:120-137): collect the expired
identifiers from the index, then run the deletion loop. -/
def cleanup_expired_files (now : Int) (st : StoreState) : StoreState × List SweepEvent :=
  sweepList st (expiredIds now st)

/-- Unfolding equation for the loop. -/
theorem sweepList_cons (st : StoreState) (i : String) (rest : List String) :
    sweepList st (i :: rest) =
      ((sweepList (cleanupOne st i).1 rest).1,
       (cleanupOne st i).2 ++ (sweepList (cleanupOne st i).1 rest).2) := rfl

/-- The dict keys of the index are pairwise distinct (a Python dict cannot
hold duplicate keys). -/
def keysNodup (st : StoreState) : Prop := (st.index.map Prod.fst).Nodup

theorem cleanupOne_none (st : StoreState) (i : String) (h : lookupId st i = none) :
    cleanupOne st i = (st, []) := by
  simp [cleanupOne, h]

theorem cleanupOne_evict (st : StoreState) (i : String) (md : ArtifactRecord)
    (h : lookupId st i = some md) (hc : md.storage_path ∈ st.disk)
    (hr : st.removeOk md.storage_path = true) :
    cleanupOne st i =
      ({ st with disk := removeDisk st.disk md.storage_path, index := delId st.index i },
       [SweepEvent.fileRemoved md.storage_path, SweepEvent.indexRemoved i]) := by
  simp [cleanupOne, h, hc, hr]

theorem cleanupOne_fail (st : StoreState) (i : String) (md : ArtifactRecord)
    (h : lookupId st i = some md) (hc : md.storage_path ∈ st.disk)
    (hr : st.removeOk md.storage_path = false) :
    cleanupOne st i = (st, []) := by
  simp [cleanupOne, h, hc, hr]

theorem cleanupOne_gone (st : StoreState) (i : String) (md : ArtifactRecord)
    (h : lookupId st i = some md) (hc : md.storage_path ∉ st.disk) :
    cleanupOne st i =
      ({ st with index := delId st.index i }, [SweepEvent.indexRemoved i]) := by
  simp [cleanupOne, h, hc]

/-- find? commutes with a filter whose predicate is implied by the search
predicate. -/
theorem find?_filter_of_imp {α : Type} (l : List α) (p q : α → Bool)
    (h : ∀ x, p x = true → q x = true) :
    (l.filter q).find? p = l.find? p := by
  induction l with
  | nil => rfl
  | cons a t ih =>
    cases hq : q a with
    | true =>
      cases hp : p a with
      | true => simp [List.filter_cons, hq, List.find?_cons, hp]
      | false => simp [List.filter_cons, hq, List.find?_cons, hp, ih]
    | false =>
      have hp : p a = false := by
        cases hpa : p a
        · rfl
        · rw [h a hpa] at hq
          cases hq
      simp [List.filter_cons, hq, List.find?_cons, hp, ih]

theorem findId_delId_other (idx : List (String × ArtifactRecord)) (i j : String)
    (hne : j ≠ i) : findId (delId idx i) j = findId idx j := by
  unfold findId delId
  rw [find?_filter_of_imp]
  intro x hx
  have hxj : x.1 = j := by simpa using hx
  rw [hxj]
  simp [beq_eq_false_iff_ne.mpr hne]

theorem lookupId_cleanupOne_other (st : StoreState) (i j : String) (hne : j ≠ i) :
    lookupId (cleanupOne st i).1 j = lookupId st j := by
  cases h : lookupId st i with
  | none => rw [cleanupOne_none st i h]
  | some md =>
    by_cases hc : md.storage_path ∈ st.disk
    · by_cases hr : st.removeOk md.storage_path = true
      · rw [cleanupOne_evict st i md h hc hr]
        exact findId_delId_other st.index i j hne
      · rw [cleanupOne_fail st i md h hc (Bool.eq_false_iff.mpr hr)]
    · rw [cleanupOne_gone st i md h hc]
      exact findId_delId_other st.index i j hne

theorem lookupId_cleanupOne_none (st : StoreState) (i j : String)
    (h : lookupId st j = none) : lookupId (cleanupOne st i).1 j = none := by
  by_cases hij : j = i
  · subst hij
    rw [cleanupOne_none st j h]
    exact h
  · rw [lookupId_cleanupOne_other st i j hij]
    exact h

theorem cleanupOne_removeOk (st : StoreState) (i : String) :
    (cleanupOne st i).1.removeOk = st.removeOk := by
  cases h : lookupId st i with
  | none => rw [cleanupOne_none st i h]
  | some md =>
    by_cases hc : md.storage_path ∈ st.disk
    · by_cases hr : st.removeOk md.storage_path = true
      · rw [cleanupOne_evict st i md h hc hr]
      · rw [cleanupOne_fail st i md h hc (Bool.eq_false_iff.mpr hr)]
    · rw [cleanupOne_gone st i md h hc]

theorem cleanupOne_disk_subset (st : StoreState) (i : String) (p : String)
    (hp : p ∉ st.disk) : p ∉ (cleanupOne st i).1.disk := by
  cases h : lookupId st i with
  | none => rw [cleanupOne_none st i h]; exact hp
  | some md =>
    by_cases hc : md.storage_path ∈ st.disk
    · by_cases hr : st.removeOk md.storage_path = true
      · rw [cleanupOne_evict st i md h hc hr]
        intro hmem
        exact hp (List.mem_filter.mp hmem).1
      · rw [cleanupOne_fail st i md h hc (Bool.eq_false_iff.mpr hr)]; exact hp
    · rw [cleanupOne_gone st i md h hc]; exact hp

theorem cleanupOne_disk_keep (st : StoreState) (i : String) (p : String)
    (hp : p ∈ st.disk) (hr0 : st.removeOk p = false) : p ∈ (cleanupOne st i).1.disk := by
  cases h : lookupId st i with
  | none => rw [cleanupOne_none st i h]; exact hp
  | some md =>
    by_cases hc : md.storage_path ∈ st.disk
    · by_cases hr : st.removeOk md.storage_path = true
      · rw [cleanupOne_evict st i md h hc hr]
        apply List.mem_filter.mpr
        refine ⟨hp, ?_⟩
        have hne : p ≠ md.storage_path := by
          intro he
          rw [← he] at hr
          rw [hr0] at hr
          cases hr
        simp [hne]
      · rw [cleanupOne_fail st i md h hc (Bool.eq_false_iff.mpr hr)]; exact hp
    · rw [cleanupOne_gone st i md h hc]; exact hp

theorem cleanupOne_index_subset (st : StoreState) (i : String)
    (q : String × ArtifactRecord) (hq : q ∈ (cleanupOne st i).1.index) : q ∈ st.index := by
  cases h : lookupId st i with
  | none => rw [cleanupOne_none st i h] at hq; exact hq
  | some md =>
    by_cases hc : md.storage_path ∈ st.disk
    · by_cases hr : st.removeOk md.storage_path = true
      · rw [cleanupOne_evict st i md h hc hr] at hq
        exact (List.mem_filter.mp hq).1
      · rw [cleanupOne_fail st i md h hc (Bool.eq_false_iff.mpr hr)] at hq; exact hq
    · rw [cleanupOne_gone st i md h hc] at hq
      exact (List.mem_filter.mp hq).1

theorem keysNodup_delId (idx : List (String × ArtifactRecord)) (i : String)
    (h : (idx.map Prod.fst).Nodup) : ((delId idx i).map Prod.fst).Nodup :=
  List.Nodup.sublist (List.Sublist.map Prod.fst (List.filter_sublist idx)) h

theorem keysNodup_cleanupOne (st : StoreState) (i : String) (h : keysNodup st) :
    keysNodup (cleanupOne st i).1 := by
  cases hl : lookupId st i with
  | none => rw [cleanupOne_none st i hl]; exact h
  | some md =>
    by_cases hc : md.storage_path ∈ st.disk
    · by_cases hr : st.removeOk md.storage_path = true
      · rw [cleanupOne_evict st i md hl hc hr]
        exact keysNodup_delId st.index i h
      · rw [cleanupOne_fail st i md hl hc (Bool.eq_false_iff.mpr hr)]; exact h
    · rw [cleanupOne_gone st i md hl hc]
      exact keysNodup_delId st.index i h

theorem sweepList_lookup_none (ids : List String) :
    ∀ (st : StoreState) (j : String), lookupId st j = none →
      lookupId (sweepList st ids).1 j = none := by
  induction ids with
  | nil => intro st j h; exact h
  | cons i rest ih =>
    intro st j h
    exact ih (cleanupOne st i).1 j (lookupId_cleanupOne_none st i j h)

theorem sweepList_lookup_not_mem (ids : List String) :
    ∀ (st : StoreState) (j : String), j ∉ ids →
      lookupId (sweepList st ids).1 j = lookupId st j := by
  induction ids with
  | nil => intro st j _; rfl
  | cons i rest ih =>
    intro st j h
    have h1 : j ≠ i := fun he => h (by rw [he]; exact List.mem_cons_self i rest)
    have h2 : j ∉ rest := fun hm => h (List.mem_cons_of_mem i hm)
    show lookupId (sweepList (cleanupOne st i).1 rest).1 j = lookupId st j
    rw [ih (cleanupOne st i).1 j h2]
    exact lookupId_cleanupOne_other st i j h1

/-- An expired record is removable by a sweep step when its backing file is
already absent or its removal succeeds. -/
def evictable (st : StoreState) (md : ArtifactRecord) : Prop :=
  md.storage_path ∉ st.disk ∨ st.removeOk md.storage_path = true

theorem evictable_cleanupOne (st : StoreState) (i : String) (md : ArtifactRecord)
    (h : evictable st md) : evictable (cleanupOne st i).1 md := by
  rcases h with hd | hr
  · exact Or.inl (cleanupOne_disk_subset st i md.storage_path hd)
  · exact Or.inr (by rw [cleanupOne_removeOk]; exact hr)

/-- A listed identifier whose record is removable is gone from the index
after the loop, whatever happens to the other records. -/
theorem sweepList_evicts (ids : List String) :
    ∀ (st : StoreState) (j : String) (md : ArtifactRecord), j ∈ ids →
      lookupId st j = some md → evictable st md →
      lookupId (sweepList st ids).1 j = none := by
  induction ids with
  | nil => intro st j md hmem _ _; cases hmem
  | cons i rest ih =>
    intro st j md hmem hmd hev
    by_cases hij : i = j
    · subst hij
      have hnone : lookupId (cleanupOne st i).1 i = none := by
        rcases hev with hd | hr
        · rw [cleanupOne_gone st i md hmd hd]
          exact findId_delId_self st.index i
        · by_cases hc : md.storage_path ∈ st.disk
          · rw [cleanupOne_evict st i md hmd hc hr]
            exact findId_delId_self st.index i
          · rw [cleanupOne_gone st i md hmd hc]
            exact findId_delId_self st.index i
      exact sweepList_lookup_none rest (cleanupOne st i).1 i hnone
    · rcases List.mem_cons.mp hmem with he | hm
      · exact absurd he.symm hij
      · have hmd2 : lookupId (cleanupOne st i).1 j = some md := by
          rw [lookupId_cleanupOne_other st i j (fun he => hij he.symm)]
          exact hmd
        exact ih (cleanupOne st i).1 j md hm hmd2 (evictable_cleanupOne st i md hev)

/-- A record whose backing file is present but not removable survives the
loop untouched, together with its file. -/
theorem sweepList_keeps (ids : List String) :
    ∀ (st : StoreState) (j : String) (md : ArtifactRecord),
      lookupId st j = some md → md.storage_path ∈ st.disk →
      st.removeOk md.storage_path = false →
      lookupId (sweepList st ids).1 j = some md ∧
      md.storage_path ∈ (sweepList st ids).1.disk ∧
      (sweepList st ids).1.removeOk md.storage_path = false := by
  induction ids with
  | nil => intro st j md hmd hc hr; exact ⟨hmd, hc, hr⟩
  | cons i rest ih =>
    intro st j md hmd hc hr
    have hmd2 : lookupId (cleanupOne st i).1 j = some md := by
      by_cases hij : j = i
      · subst hij
        rw [cleanupOne_fail st j md hmd hc hr]
        exact hmd
      · rw [lookupId_cleanupOne_other st i j hij]
        exact hmd
    have hc2 : md.storage_path ∈ (cleanupOne st i).1.disk :=
      cleanupOne_disk_keep st i md.storage_path hc hr
    have hr2 : (cleanupOne st i).1.removeOk md.storage_path = false := by
      rw [cleanupOne_removeOk]
      exact hr
    exact ih (cleanupOne st i).1 j md hmd2 hc2 hr2

/-- When every listed identifier has a present-but-unremovable record, the
loop is the identity and emits no events. -/
theorem sweepList_id (ids : List String) :
    ∀ st : StoreState,
      (∀ i ∈ ids, ∃ md, lookupId st i = some md ∧ md.storage_path ∈ st.disk ∧
        st.removeOk md.storage_path = false) →
      sweepList st ids = (st, []) := by
  induction ids with
  | nil => intro st _; rfl
  | cons i rest ih =>
    intro st h
    rcases h i (List.mem_cons_self i rest) with ⟨md, hmd, hc, hr⟩
    have hstep : cleanupOne st i = (st, []) := cleanupOne_fail st i md hmd hc hr
    rw [sweepList_cons, hstep]
    rw [ih st (fun i2 hi2 => h i2 (List.mem_cons_of_mem i hi2))]
    rfl

theorem sweepList_keysNodup (ids : List String) :
    ∀ st : StoreState, keysNodup st → keysNodup (sweepList st ids).1 := by
  induction ids with
  | nil => intro st h; exact h
  | cons i rest ih =>
    intro st h
    exact ih (cleanupOne st i).1 (keysNodup_cleanupOne st i h)

theorem sweepList_index_subset (ids : List String) :
    ∀ (st : StoreState) (q : String × ArtifactRecord),
      q ∈ (sweepList st ids).1.index → q ∈ st.index := by
  induction ids with
  | nil => intro st q hq; exact hq
  | cons i rest ih =>
    intro st q hq
    exact cleanupOne_index_subset st i q (ih (cleanupOne st i).1 q hq)

theorem find?_eq_of_mem_nodup (idx : List (String × ArtifactRecord)) :
    (idx.map Prod.fst).Nodup → ∀ p ∈ idx, idx.find? (fun q => q.1 == p.1) = some p := by
  induction idx with
  | nil => intro _ p hp; cases hp
  | cons a t ih =>
    intro h p hp
    rw [List.map_cons] at h
    have hnd := List.nodup_cons.mp h
    rcases List.mem_cons.mp hp with rfl | hpt
    · simp [List.find?_cons]
    · have ha : (a.1 == p.1) = false := by
        have h2 : p.1 ∈ t.map Prod.fst := List.mem_map_of_mem Prod.fst hpt
        exact beq_eq_false_iff_ne.mpr (fun he => hnd.1 (he ▸ h2))
      rw [List.find?_cons_of_neg _ (by simp [ha])]
      exact ih hnd.2 p hpt

theorem lookupId_of_mem_nodup (st : StoreState) (h : keysNodup st)
    (p : String × ArtifactRecord) (hp : p ∈ st.index) : lookupId st p.1 = some p.2 := by
  unfold lookupId findId
  rw [find?_eq_of_mem_nodup st.index h p hp]
  rfl

theorem mem_of_lookupId (st : StoreState) (id : String) (md : ArtifactRecord)
    (h : lookupId st id = some md) : (id, md) ∈ st.index := by
  unfold lookupId findId at h
  cases hf : st.index.find? (fun p => p.1 == id) with
  | none => rw [hf] at h; cases h
  | some q =>
    rw [hf] at h
    have hq2 : q.2 = md := by simpa using h
    have hmem := List.mem_of_find?_eq_some hf
    have hq1 : q.1 = id := by
      have := List.find?_some hf
      simpa using this
    cases q with
    | mk a b =>
      cases hq1
      cases hq2
      exact hmem

theorem mem_expiredIds (now : Int) (st : StoreState) (p : String × ArtifactRecord)
    (hp : p ∈ st.index) (he : p.2.expires_at < now) : p.1 ∈ expiredIds now st := by
  unfold expiredIds
  exact List.mem_map_of_mem Prod.fst (List.mem_filter.mpr ⟨hp, by simp [he]⟩)

theorem of_mem_expiredIds (now : Int) (st : StoreState) (i : String)
    (hi : i ∈ expiredIds now st) :
    ∃ p ∈ st.index, p.1 = i ∧ p.2.expires_at < now := by
  unfold expiredIds at hi
  rcases List.mem_map.mp hi with ⟨p, hp, hpi⟩
  have h2 := List.mem_filter.mp hp
  exact ⟨p, h2.1, hpi, by simpa using h2.2⟩

/-- Two artifact records expiring at times 10 and 20. -/
def recA : ArtifactRecord :=
  { filename := "a.pdf", storage_path := "/s/a.pdf", created_at := 0,
    expires_at := 10, size := 1 }

def recB : ArtifactRecord :=
  { filename := "b.pdf", storage_path := "/s/b.pdf", created_at := 0,
    expires_at := 20, size := 2 }

/-- A store in which both records are expired at time 100 and the removal of
the second backing file raises. -/
def stSweep : StoreState :=
  { index := [("a", recA), ("b", recB)], disk := ["/s/a.pdf", "/s/b.pdf"],
    removeOk := fun q => q == "/s/a.pdf" }

/-- Counterexample for C7: a sweep pass does not remove exactly the expired
records — the expired record b, whose os.remove raises, survives the pass
(its index deletion sits in the same try block), while a is removed. -/
theorem C7_sweep_counterexample :
    recB.expires_at < 100 ∧
    lookupId (cleanup_expired_files 100 stSweep).1 "b" = some recB ∧
    lookupId (cleanup_expired_files 100 stSweep).1 "a" = none ∧
    (cleanup_expired_files 100 stSweep).1.index ≠ [] := by
  refine ⟨by decide, by decide, by decide, by decide⟩

/-- Claim C7 as amended: with distinct dict keys, a sweep pass leaves every
unexpired record in place; removes every expired record whose backing file is
absent or removable, independently of failures among the other records (the
sweep never aborts); keeps an expired record exactly when its backing-file
removal raises; per record the backing file is deleted first and the index
entry second; and a second sweep run on the resulting store is the identity,
so the store size does not change the second time. -/
theorem C7_sweep_amended (now : Int) (st : StoreState) (hnd : keysNodup st) :
    (∀ id md, lookupId st id = some md → ¬(md.expires_at < now) →
      lookupId (cleanup_expired_files now st).1 id = some md) ∧
    (∀ id md, lookupId st id = some md → md.expires_at < now →
      (md.storage_path ∉ st.disk ∨ st.removeOk md.storage_path = true) →
      lookupId (cleanup_expired_files now st).1 id = none) ∧
    (∀ id md, lookupId st id = some md → md.expires_at < now →
      md.storage_path ∈ st.disk → st.removeOk md.storage_path = false →
      lookupId (cleanup_expired_files now st).1 id = some md) ∧
    (∀ id md, lookupId st id = some md → md.storage_path ∈ st.disk →
      st.removeOk md.storage_path = true →
      (cleanupOne st id).2 =
        [SweepEvent.fileRemoved md.storage_path, SweepEvent.indexRemoved id]) ∧
    (cleanup_expired_files now (cleanup_expired_files now st).1).1 =
      (cleanup_expired_files now st).1 ∧
    ((cleanup_expired_files now (cleanup_expired_files now st).1).1).index.length =
      ((cleanup_expired_files now st).1).index.length := by
  have h5 : (cleanup_expired_files now (cleanup_expired_files now st).1).1 =
      (cleanup_expired_files now st).1 := by
    have hnd1 : keysNodup (cleanup_expired_files now st).1 :=
      sweepList_keysNodup (expiredIds now st) st hnd
    have hcond : ∀ i ∈ expiredIds now (cleanup_expired_files now st).1,
        ∃ md, lookupId (cleanup_expired_files now st).1 i = some md ∧
          md.storage_path ∈ (cleanup_expired_files now st).1.disk ∧
          (cleanup_expired_files now st).1.removeOk md.storage_path = false := by
      intro i hi
      rcases of_mem_expiredIds now _ i hi with ⟨p, hp, hpi, hpe⟩
      have hp0 : p ∈ st.index := sweepList_index_subset (expiredIds now st) st p hp
      have hlook0 : lookupId st p.1 = some p.2 := lookupId_of_mem_nodup st hnd p hp0
      have hlook1 : lookupId (cleanup_expired_files now st).1 p.1 = some p.2 :=
        lookupId_of_mem_nodup _ hnd1 p hp
      have hnev : ¬ evictable st p.2 := by
        intro hev
        have hgone := sweepList_evicts (expiredIds now st) st p.1 p.2
          (mem_expiredIds now st p hp0 hpe) hlook0 hev
        exact Option.noConfusion (hlook1.symm.trans hgone)
      have hc0 : p.2.storage_path ∈ st.disk := by
        by_contra hcc
        exact hnev (Or.inl hcc)
      have hr0 : st.removeOk p.2.storage_path = false := by
        cases hrb : st.removeOk p.2.storage_path
        · rfl
        · exact absurd (Or.inr hrb) hnev
      have hkeep := sweepList_keeps (expiredIds now st) st p.1 p.2 hlook0 hc0 hr0
      exact ⟨p.2, by rw [← hpi]; exact hkeep.1, hkeep.2.1, hkeep.2.2⟩
    show (sweepList (cleanup_expired_files now st).1
        (expiredIds now (cleanup_expired_files now st).1)).1 =
      (cleanup_expired_files now st).1
    rw [sweepList_id (expiredIds now (cleanup_expired_files now st).1)
      (cleanup_expired_files now st).1 hcond]
  refine ⟨?_, ?_, ?_, ?_, h5, by rw [h5]⟩
  · intro id md hmd hne
    have hnotmem : id ∉ expiredIds now st := by
      intro hmem
      rcases of_mem_expiredIds now st id hmem with ⟨p, hp, hpi, hpe⟩
      have hl := lookupId_of_mem_nodup st hnd p hp
      rw [hpi] at hl
      have hpm : p.2 = md := by
        have := hl.symm.trans hmd
        simpa using this
      rw [hpm] at hpe
      exact hne hpe
    show lookupId (sweepList st (expiredIds now st)).1 id = some md
    rw [sweepList_lookup_not_mem (expiredIds now st) st id hnotmem]
    exact hmd
  · intro id md hmd hexp hev
    have hmem : id ∈ expiredIds now st :=
      mem_expiredIds now st (id, md) (mem_of_lookupId st id md hmd) hexp
    exact sweepList_evicts (expiredIds now st) st id md hmem hmd hev
  · intro id md hmd _ hc hr
    exact (sweepList_keeps (expiredIds now st) st id md hmd hc hr).1
  · intro id md hmd hc hr
    rw [cleanupOne_evict st id md hmd hc hr]

/-- Witness for the amended C7: in the two-record store, the sweep at time
100 removes a (events: file first, index second) and keeps b, whose removal
raises. -/
theorem C7_sweep_amended_witness :
    lookupId (cleanup_expired_files 100 stSweep).1 "b" = some recB ∧
    lookupId (cleanup_expired_files 100 stSweep).1 "a" = none ∧
    (cleanupOne stSweep "a").2 =
      [SweepEvent.fileRemoved recA.storage_path, SweepEvent.indexRemoved "a"] := by
  have h := C7_sweep_amended 100 stSweep (by unfold keysNodup; decide)
  exact ⟨h.2.2.1 "b" recB (by decide) (by decide) (by decide) (by decide),
    h.2.1 "a" recA (by decide) (by decide) (Or.inr (by decide)),
    h.2.2.2.1 "a" recA (by decide) (by decide) (by decide)⟩

end LatexRenderer
